import Mathlib

/-
  Verification of the CCA-app-demo repository (host daemon, guest app-manager,
  image handler, shared protocol) against its natural-language specification.

  Shallow embedding: each Rust function relevant to a claim is translated into
  an executable Lean definition.  Machine integers appear as Nat/Int, byte
  strings as List Nat, fallible code as Except, and side effects (directory
  creation, tar unpacking, mkfs/mount, vsock frames) as explicit effect lists.
  Cryptographic hashes and serde parsers are kept abstract as parameters of an
  environment structure so the installer's control flow is modelled exactly
  while the hash function itself stays uninterpreted.
-/

namespace CCA

/-! ## Shared protocol (src/protocol/src/protocol.rs)

`Command` and `Response` are plain serde enums.  `Response::ExitStatus`
carries a `std::process::ExitStatus`, serialized via `into_raw`/`from_raw`
as the raw platform wait-status integer; on a fixed platform the value is
exactly that integer, so the model stores the raw `Int` directly. -/

inductive Command where
  | StartApp (id : String)
  | TerminateApp (id : String)
  | KillApp (id : String)
  | Shutdown
  deriving DecidableEq, Repr

inductive Response where
  | Ok
  | ExitStatus (raw : Int)
  deriving DecidableEq, Repr

/-- JSON values, the target of serde_json serialization. -/
inductive Json where
  | str (s : String)
  | int (n : Int)
  | arr (elems : List Json)
  | obj (fields : List (String × Json))

/-- serde's externally-tagged JSON encoding of `Command`.  Newtype variants
become one-field objects; the empty tuple variant `Shutdown()` becomes an
object whose value is the empty array. -/
def serializeCommand : Command → Json
  | .StartApp id => .obj [("StartApp", .str id)]
  | .TerminateApp id => .obj [("TerminateApp", .str id)]
  | .KillApp id => .obj [("KillApp", .str id)]
  | .Shutdown => .obj [("Shutdown", .arr [])]

/-- serde's externally-tagged JSON decoding of `Command`. -/
def deserializeCommand : Json → Option Command
  | .obj [("StartApp", .str id)] => some (.StartApp id)
  | .obj [("TerminateApp", .str id)] => some (.TerminateApp id)
  | .obj [("KillApp", .str id)] => some (.KillApp id)
  | .obj [("Shutdown", .arr [])] => some .Shutdown
  | _ => none

/-- serde's externally-tagged JSON encoding of `Response`.  The unit variant
`Ok` serializes as the bare string; `ExitStatus` uses the custom
`serialize_exit_status`, which emits `serialize_i32(status.into_raw())`. -/
def serializeResponse : Response → Json
  | .Ok => .str "Ok"
  | .ExitStatus raw => .obj [("ExitStatus", .int raw)]

/-- Decoding of `Response`; `deserialize_exit_status` rebuilds the status
with `ExitStatus::from_raw(code)`. -/
def deserializeResponse : Json → Option Response
  | .str s => if s = "Ok" then some .Ok else none
  | .obj [("ExitStatus", .int raw)] => some (.ExitStatus raw)
  | _ => none

/-! ## ConnectionDispatcher (src/vm/src/vsock.rs)

Streams are identified abstractly by `Nat`.  The two hash maps become
functions from CIDs; `add_stream`/`request_stream` return the updated
dispatcher together with the stream delivered to the parked oneshot waiter
during `resolve` (`none` when no rendezvous happened yet).  Rust returns the
error before touching either map, so the erroring branches leave the state
unchanged. -/

inductive ConnectionDispatcherError where
  | ConnectionPresent (cid : Nat)
  | RequestPresent (cid : Nat)
  | SendError (cid : Nat)
  deriving DecidableEq, Repr

structure ConnectionDispatcher where
  available : Nat → Option Nat
  requests : Nat → Bool

/-- Pointwise update of a CID-keyed map. -/
def upd {α : Type} (m : Nat → α) (k : Nat) (v : α) : Nat → α :=
  fun x => if x = k then v else m x

def ConnectionDispatcher.new : ConnectionDispatcher :=
  { available := fun _ => none, requests := fun _ => false }

/-- `resolve(cid)`: when both maps contain the CID, remove both entries and
send the stream to the waiter.  The second component is the delivered
stream. -/
def ConnectionDispatcher.resolve (d : ConnectionDispatcher) (cid : Nat) :
    ConnectionDispatcher × Option Nat :=
  match d.available cid, d.requests cid with
  | some s, true =>
      ({ available := upd d.available cid none,
         requests := upd d.requests cid false }, some s)
  | _, _ => (d, none)

def ConnectionDispatcher.add_stream (d : ConnectionDispatcher) (cid stream : Nat) :
    Except ConnectionDispatcherError (ConnectionDispatcher × Option Nat) :=
  if (d.available cid).isSome then
    .error (.ConnectionPresent cid)
  else
    .ok (ConnectionDispatcher.resolve
      { d with available := upd d.available cid (some stream) } cid)

def ConnectionDispatcher.request_stream (d : ConnectionDispatcher) (cid : Nat) :
    Except ConnectionDispatcherError (ConnectionDispatcher × Option Nat) :=
  if d.requests cid then
    .error (.RequestPresent cid)
  else
    .ok (ConnectionDispatcher.resolve
      { d with requests := upd d.requests cid true } cid)

/-- One external call to the dispatcher, for reasoning about call sequences. -/
inductive DispatchOp where
  | add (cid stream : Nat)
  | request (cid : Nat)

/-- State transition of one call; on an error the Rust code has not mutated
the maps, so the state is unchanged. -/
def ConnectionDispatcher.step (d : ConnectionDispatcher) : DispatchOp → ConnectionDispatcher
  | .add cid s =>
      match d.add_stream cid s with
      | .ok (d', _) => d'
      | .error _ => d
  | .request cid =>
      match d.request_stream cid with
      | .ok (d', _) => d'
      | .error _ => d

def ConnectionDispatcher.run (d : ConnectionDispatcher) (ops : List DispatchOp) :
    ConnectionDispatcher :=
  ops.foldl ConnectionDispatcher.step d

/-- At-rest invariant: no CID is simultaneously in `available` and `requests`. -/
def ConnectionDispatcher.atRest (d : ConnectionDispatcher) : Prop :=
  ∀ cid, ¬((d.available cid).isSome ∧ d.requests cid = true)

/-! ## QEMUDisk (src/vm/src/qdisk.rs)

The disk file is modelled by its byte length, its GPT disk GUID and the GUIDs
of its partitions in BTreeMap (partition-id) order; GUIDs are abstract `Nat`s.
`QEMUDisk::new` takes the state of the file at `path` (`none` when absent) and
returns the handle together with the resulting file state.  The fresh GUIDs
the gpt crate would generate during creation are passed in explicitly; a
freshly initialized disk carries exactly the one partition `add_partition`
creates, covering the first free region. -/

structure DiskFile where
  size : Nat
  diskGuid : Nat
  partGuids : List Nat
  deriving DecidableEq, Repr

inductive QEMUDiskError where
  | ExistingDiskSizeMismatch (path : String) (expected got : Nat)
  | GPTErrorNoPartitions
  deriving DecidableEq, Repr

structure QEMUDisk where
  path : String
  diskUuidMem : Nat
  partUuidMem : Nat
  deriving DecidableEq, Repr

/-- The read-only reopen at the end of `QEMUDisk::new`: read the disk GUID and
the first partition's GUID (`partitions().first_key_value()`). -/
def QEMUDisk.reopen (path : String) (f : DiskFile) :
    Except QEMUDiskError (QEMUDisk × DiskFile) :=
  match f.partGuids with
  | [] => .error .GPTErrorNoPartitions
  | p :: _ =>
      .ok ({ path := path, diskUuidMem := f.diskGuid, partUuidMem := p }, f)

def QEMUDisk.new (freshDiskGuid freshPartGuid : Nat) (path : String)
    (file : Option DiskFile) (size_mb : Nat) :
    Except QEMUDiskError (QEMUDisk × DiskFile) :=
  let size_b := size_mb * 1024 * 1024
  match file with
  | some f =>
      if f.size ≠ size_b then
        .error (.ExistingDiskSizeMismatch path size_b f.size)
      else
        QEMUDisk.reopen path f
  | none =>
      QEMUDisk.reopen path
        { size := size_b, diskGuid := freshDiskGuid, partGuids := [freshPartGuid] }

/-- Accessor `part_uuid()` (qdisk.rs line 128). -/
def QEMUDisk.part_uuid (s : QEMUDisk) : Nat := s.partUuidMem

/-- Accessor `disk_uuid()` (qdisk.rs line 129): the source returns
`&self.part_uuid`, not `&self.disk_uuid`. -/
def QEMUDisk.disk_uuid (s : QEMUDisk) : Nat := s.partUuidMem

/-! ## Dm-crypt target composer (src/app-manager/src/dmcrypt.rs)

The `Display` implementations and the parameter-string composition inside
`CryptDevice::load` are translated literally; bytes are `Nat`s in 0..256. -/

inductive Cipher where
  | Aes
  | Twofish
  | Serpent
  deriving DecidableEq, Repr

def Cipher.display : Cipher → String
  | .Aes => "aes"
  | .Twofish => "twofish"
  | .Serpent => "serpent"

inductive HashAlgo where
  | Sha256
  deriving DecidableEq, Repr

def HashAlgo.display : HashAlgo → String
  | .Sha256 => "sha256"

inductive IvMode where
  | Plain
  | Plain64
  | Essiv (h : HashAlgo)
  deriving DecidableEq, Repr

def IvMode.display : IvMode → String
  | .Plain => "plain"
  | .Plain64 => "plain64"
  | .Essiv h => "essiv:" ++ h.display

inductive BlockMode where
  | Cbc
  | Xts
  deriving DecidableEq, Repr

def BlockMode.display : BlockMode → String
  | .Cbc => "cbc"
  | .Xts => "xts"

inductive KeyType where
  | Logon
  | User
  | Encrypted
  deriving DecidableEq, Repr

def KeyType.display : KeyType → String
  | .User => "user"
  | .Logon => "logon"
  | .Encrypted => "encrypted"

/-- One lowercase hex digit. -/
def hexDigit (n : Nat) : Char :=
  if n < 10 then Char.ofNat (48 + n) else Char.ofNat (97 + (n - 10))

/-- `hex::encode`: each byte as two lowercase hex digits. -/
def hexEncode (bytes : List Nat) : String :=
  String.mk (bytes.flatMap (fun b => [hexDigit (b / 16 % 16), hexDigit (b % 16)]))

inductive Key where
  | Raw (bytes : List Nat)
  | Hex (s : String)
  | Keyring (key_size : Nat) (key_type : KeyType) (key_desc : String)
  deriving DecidableEq, Repr

/-- `impl Display for Key` (dmcrypt.rs lines 119-128). -/
def Key.display : Key → String
  | .Hex h => h
  | .Raw v => hexEncode v
  | .Keyring key_size key_type key_desc =>
      ":" ++ toString key_size ++ ":" ++ key_type.display ++ ":" ++ key_desc

structure CryptoParams where
  cipher : Cipher
  iv_mode : IvMode
  block_mode : BlockMode
  iv_offset : Nat
  additional_options : Option (List String)
  deriving DecidableEq, Repr

structure DmCryptTable where
  start : Nat
  len : Nat
  params : CryptoParams
  offset : Nat
  deriving DecidableEq, Repr

/-- The `params` string built by `CryptDevice::load` (dmcrypt.rs lines
162-174): the base format of cipher-blockmode-ivmode, key, iv_offset,
devpath and offset, followed, when `additional_options` is present, by a
push_str of the option count, one space, and the space-joined options —
note the source appends no separating space before the option count. -/
def CryptDevice.loadParams (entry : DmCryptTable) (devpath : String) (key : Key) : String :=
  let base := entry.params.cipher.display ++ "-" ++ entry.params.block_mode.display
    ++ "-" ++ entry.params.iv_mode.display ++ " " ++ key.display ++ " "
    ++ toString entry.params.iv_offset ++ " " ++ devpath ++ " " ++ toString entry.offset
  match entry.params.additional_options with
  | some opts => base ++ (toString opts.length ++ " " ++ String.intercalate " " opts)
  | none => base

/-! ## Image handler (src/image/handler)

File contents are strings; `hash` abstracts the sha256/sha512 streaming
digests of `Hasher`, and `parseManifests`/`parseConfig` abstract the
serde_json parses.  Only the container-config fields the installer reads
(`architecture`, `rootfs.diff_ids`) are carried.  The unpacked image
directory is a partial map from file name (relative to `<workdir>/img/`) to
content; `manifest.json` lives there too.  Directory creation, tar unpacking
and process spawning are recorded in an effect trace. -/

inductive HashType where
  | Sha256
  | Sha512
  deriving DecidableEq, Repr

structure Digest where
  ty : HashType
  val : List Nat
  deriving DecidableEq, Repr

structure ImageManifest where
  config : String
  tags : List String
  layers : List String
  deriving DecidableEq, Repr

structure RootFs where
  ty : String
  diff_ids : List Digest
  deriving DecidableEq, Repr

structure ContainerConfig where
  arch : String
  rootfs : RootFs
  deriving DecidableEq, Repr

inductive InstallerError where
  | DirCreationError
  | ArchiveError
  | InvalidImageFileError (path : String)
  | InvalidPath (path : String)
  | InvalidHex (s : String)
  | HashMismatch (path : String) (expected got : List Nat)
  | EmptyManifest
  | HashNumberMismatch
  | NoImageForArch
  deriving DecidableEq, Repr

inductive ImageError where
  | DockerError (e : InstallerError)
  | FileOpenError (path : String)
  | SerdeError (content : String)
  deriving DecidableEq, Repr

structure Launcher where
  rootfs : String
  conf : ContainerConfig
  deriving DecidableEq, Repr

/-- The abstract hashing and parsing environment of the installer. -/
structure InstallerEnv where
  hash : HashType → String → List Nat
  parseManifests : String → Option (List ImageManifest)
  parseConfig : String → Option ContainerConfig

/-- The unpacked `<workdir>/img/` directory. -/
structure ImgDir where
  files : String → Option String

/-- Value of one hex digit, or `none`. -/
def hexVal (c : Char) : Option Nat :=
  if 48 ≤ c.toNat ∧ c.toNat ≤ 57 then some (c.toNat - 48)
  else if 97 ≤ c.toNat ∧ c.toNat ≤ 102 then some (c.toNat - 87)
  else if 65 ≤ c.toNat ∧ c.toNat ≤ 70 then some (c.toNat - 55)
  else none

/-- `hex::decode`: pairs of hex digits; odd length or a bad digit fails. -/
def hexDecodeAux : List Char → Option (List Nat)
  | [] => some []
  | [_] => none
  | a :: b :: rest =>
      match hexVal a, hexVal b, hexDecodeAux rest with
      | some ha, some hb, some tl => some ((ha * 16 + hb) :: tl)
      | _, _, _ => none

def hexDecode (s : String) : Option (List Nat) :=
  hexDecodeAux s.data

/-- Characters before the first dot, or `none` when no dot occurs. -/
def splitOnceDotAux : List Char → Option (List Char)
  | [] => none
  | c :: rest =>
      if c = '.' then some []
      else
        match splitOnceDotAux rest with
        | none => none
        | some pre => some (c :: pre)

/-- `str::split_once('.')`, keeping the part before the first dot. -/
def splitOnceDot (s : String) : Option String :=
  (splitOnceDotAux s.data).map fun cs => String.mk cs

/-- `Installer::read_container_config` (installer.rs lines 81-97): read the
referenced config file through a sha256 hasher, recover the expected hash
from the digest-prefixed file name, compare, then parse. -/
def read_container_config (env : InstallerEnv) (img : ImgDir) (m : ImageManifest) :
    Except ImageError ContainerConfig :=
  match img.files m.config with
  | none => .error (.FileOpenError m.config)
  | some content =>
      let config_measurement := env.hash .Sha256 content
      match splitOnceDot m.config with
      | none => .error (.DockerError (.InvalidPath m.config))
      | some hexStr =>
          match hexDecode hexStr with
          | none => .error (.DockerError (.InvalidHex hexStr))
          | some config_hash =>
              if config_measurement ≠ config_hash then
                .error (.DockerError (.HashMismatch m.config config_hash config_measurement))
              else
                match env.parseConfig content with
                | none => .error (.SerdeError content)
                | some c => .ok c

/-- The selection loop of `Installer::read_manifest` (installer.rs lines
70-78): walk the manifest list in order, read each referenced config
(aborting on its errors), and return the first whose architecture is
`"arm64"`; `NoImageForArch` when the list is exhausted. -/
def selectArm64 (env : InstallerEnv) (img : ImgDir) :
    List ImageManifest → Except ImageError (ImageManifest × ContainerConfig)
  | [] => .error (.DockerError .NoImageForArch)
  | m :: rest =>
      match read_container_config env img m with
      | .error e => .error e
      | .ok c => if c.arch = "arm64" then .ok (m, c) else selectArm64 env img rest

/-- `Installer::read_manifest` (installer.rs lines 59-79): hash
`img/manifest.json` while reading it, compare against the root of trust when
one is supplied, parse the manifest list, then select the arm64 entry. -/
def read_manifest (env : InstallerEnv) (img : ImgDir) (rot : Option (List Nat)) :
    Except ImageError (ImageManifest × ContainerConfig) :=
  match img.files "manifest.json" with
  | none => .error (.FileOpenError "manifest.json")
  | some content =>
      let manifest_hash := env.hash .Sha256 content
      match rot with
      | some r =>
          if r ≠ manifest_hash then
            .error (.DockerError (.HashMismatch "manifest.json" r manifest_hash))
          else
            match env.parseManifests content with
            | none => .error (.SerdeError content)
            | some manifests => selectArm64 env img manifests
      | none =>
          match env.parseManifests content with
          | none => .error (.SerdeError content)
          | some manifests => selectArm64 env img manifests

/-- Side effects of `Installer::install`, in program order. -/
inductive Effect where
  | createDir (name : String)
  | unpackOuter
  | unpackLayer (path : String)
  | spawnProcess
  deriving DecidableEq, Repr

/-- The per-layer loop of `install` (installer.rs lines 125-141): open the
layer file, unpack it through a hasher keyed by the declared digest
algorithm (the unpack happens before the digest comparison), then compare. -/
def verifyLayers (env : InstallerEnv) (img : ImgDir) :
    List (String × Digest) → Except ImageError Unit × List Effect
  | [] => (.ok (), [])
  | (path, digest) :: rest =>
      match img.files path with
      | none => (.error (.DockerError (.InvalidImageFileError path)), [])
      | some content =>
          let measurement := env.hash digest.ty content
          if measurement = digest.val then
            let (r, effs) := verifyLayers env img rest
            (r, .unpackLayer path :: effs)
          else
            (.error (.DockerError (.HashMismatch path digest.val measurement)),
             [.unpackLayer path])

/-- `Installer::install` (installer.rs lines 106-147): unpack the outer tar
into `img/`, verify and read the manifest with the root of trust, create
`rootfs/`, enforce the layer/diff_id count, then verify each layer in order;
on success build the `Launcher`.  The effect trace records the directory
creations and unpacks that happened before the result was produced. -/
def install (env : InstallerEnv) (rot : List Nat) (img : ImgDir) :
    Except ImageError Launcher × List Effect :=
  let effs0 : List Effect := [.createDir "img", .unpackOuter]
  match read_manifest env img (some rot) with
  | .error e => (.error e, effs0)
  | .ok (m, config) =>
      let effs1 := effs0 ++ [.createDir "rootfs"]
      if m.layers.length ≠ config.rootfs.diff_ids.length then
        (.error (.DockerError .HashNumberMismatch), effs1)
      else
        let (r, effs2) := verifyLayers env img (m.layers.zip config.rootfs.diff_ids)
        match r with
        | .error e => (.error e, effs1 ++ effs2)
        | .ok _ => (.ok { rootfs := "rootfs", conf := config }, effs1 ++ effs2)

/-- `Installer::validate` (installer.rs lines 149-158): read the manifest
without a root of trust and point a `Launcher` at the existing rootfs. -/
def validate (env : InstallerEnv) (img : ImgDir) : Except ImageError Launcher :=
  match read_manifest env img none with
  | .error e => .error e
  | .ok (_, config) => .ok { rootfs := "rootfs", conf := config }

/-! ## Launcher request channel (src/image/handler/src/docker/launcher.rs)

`stop` / `kill` / `wait` all go through `send_request`, which consults the
optional `txrx` channel pair installed by `launch`.  The live supervisor is
abstracted as a function from requests to the exit status it replies with;
before `launch` the field is `none`. -/

inductive LauncherRequest where
  | Stop
  | Kill
  | Wait
  deriving DecidableEq, Repr

inductive LauncherError where
  | AppNotRunning
  | ChannelClosed
  deriving DecidableEq, Repr

/-- `Launcher::send_request` (launcher.rs lines 177-185). -/
def Launcher.send_request (txrx : Option (LauncherRequest → Int)) (req : LauncherRequest) :
    Except LauncherError Int :=
  match txrx with
  | some channel => .ok (channel req)
  | none => .error .AppNotRunning

/-! ## Realm supervisor command dispatch (src/vm/src/realm.rs)

The `rx.recv()` arm of `Realm::handle_realm`'s select loop (lines 251-270):
given whether the guest vsock stream has arrived, map one queued `Request` to
the `Response` sent back on the channel and the list of `Command` frames
written to the guest.  Only `Shutdown` is forwarded; every other request is
answered `Ok` by the wildcard arm without touching the stream. -/

inductive HostRequest where
  | StartApp (id : String)
  | TerminateApp (id : String)
  | KillApp (id : String)
  | Shutdown
  deriving DecidableEq, Repr

inductive HostResponse where
  | RealmNotConnected
  | Ok
  deriving DecidableEq, Repr

def Realm.dispatchRequest (streamConnected : Bool) (req : HostRequest) :
    HostResponse × List Command :=
  match req with
  | .Shutdown =>
      if streamConnected then (.Ok, [Command.Shutdown]) else (.RealmNotConnected, [])
  | _ => (.Ok, [])

/-! ## Guest application (src/app-manager/src/app.rs)

`provision_secure_memory` requires the decrypted secure-storage dm device and
then calls `mount_storage`, which formats the device only when the
application carries provision info, creates the mount point, and mounts it.
The decrypted device is abstracted by its `/dev` path. -/

inductive ApplicationError where
  | MainStorageNotDecrypted
  | SecureStorageNotDecrypted
  | ApplicationNotInstalled
  | PartitionNotFound (uuid : String)
  deriving DecidableEq, Repr

inductive AppEffect where
  | format (devpath label : String)
  | mkdir (target : String)
  | mountExt2 (devpath target : String)
  deriving DecidableEq, Repr

structure Application where
  workdir : String
  provision_info : Bool
  main_storage : Option String
  secure_storage : Option String
  deriving DecidableEq, Repr

/-- `Application::mount_storage` (app.rs lines 116-131): format only when
`provision_info` is present, then create the target directory under the
workdir and mount the ext2 filesystem there. -/
def Application.mount_storage (app : Application) (devpath target label : String) :
    List AppEffect :=
  (if app.provision_info then [AppEffect.format devpath label] else [])
    ++ [AppEffect.mkdir (app.workdir ++ "/" ++ target),
        AppEffect.mountExt2 devpath (app.workdir ++ "/" ++ target)]

/-- `Application::provision_secure_memory` (app.rs lines 167-179). -/
def Application.provision_secure_memory (app : Application) :
    Except ApplicationError (List AppEffect) :=
  match app.secure_storage with
  | none => .error .SecureStorageNotDecrypted
  | some dev => .ok (app.mount_storage dev "secure" "Secure storage")

/-! ## Guest command loop (src/app-manager/src/manager.rs)

A guest application's runtime is abstracted by the outcomes its launcher
operations would produce.  `handle_command` (lines 165-190) looks the id up
in the application map and errors with `ApplicationDoesNotExists` when it is
absent; `event_loop` (lines 192-205) writes a `Response` frame only when
`handle_command` succeeded — the `?` on it propagates the error out of the
loop before any write. -/

instance {ε α : Type} [DecidableEq ε] [DecidableEq α] : DecidableEq (Except ε α) := fun a b =>
  match a, b with
  | .error e, .error e' =>
      if h : e = e' then .isTrue (by rw [h])
      else .isFalse (by intro hh; cases hh; exact h rfl)
  | .error _, .ok _ => .isFalse (by intro hh; cases hh)
  | .ok _, .error _ => .isFalse (by intro hh; cases hh)
  | .ok v, .ok v' =>
      if h : v = v' then .isTrue (by rw [h])
      else .isFalse (by intro hh; cases hh; exact h rfl)

structure GuestApp where
  terminateResult : Except ApplicationError Int
  killResult : Except ApplicationError Int
  launchResult : Except ApplicationError Unit
  deriving DecidableEq, Repr

inductive AppManagerError where
  | AppError (e : ApplicationError)
  | ApplicationDoesNotExists
  deriving DecidableEq, Repr

def AppManager.handle_command (apps : List (String × GuestApp)) :
    Command → Except AppManagerError Response
  | .Shutdown => .ok .Ok
  | .TerminateApp id =>
      match apps.lookup id with
      | none => .error .ApplicationDoesNotExists
      | some a =>
          match a.terminateResult with
          | .error e => .error (.AppError e)
          | .ok s => .ok (.ExitStatus s)
  | .KillApp id =>
      match apps.lookup id with
      | none => .error .ApplicationDoesNotExists
      | some a =>
          match a.killResult with
          | .error e => .error (.AppError e)
          | .ok s => .ok (.ExitStatus s)
  | .StartApp id =>
      match apps.lookup id with
      | none => .error .ApplicationDoesNotExists
      | some a =>
          match a.launchResult with
          | .error e => .error (.AppError e)
          | .ok _ => .ok .Ok

/-- How `AppManager::event_loop` ended. -/
inductive LoopOutcome where
  | shutdown
  | awaitingInput
  | failed (e : AppManagerError)
  deriving DecidableEq, Repr

/-- `AppManager::event_loop` over the sequence of commands the host sends:
returns the `Response` frames written back in order and how the loop ended.
A failing `handle_command` ends the loop with no frame written for that
command; a successful `Shutdown` writes its `Ok` and breaks. -/
def AppManager.event_loop (apps : List (String × GuestApp)) :
    List Command → List Response × LoopOutcome
  | [] => ([], .awaitingInput)
  | c :: rest =>
      match AppManager.handle_command apps c with
      | .error e => ([], .failed e)
      | .ok resp =>
          match c with
          | .Shutdown => ([resp], .shutdown)
          | _ =>
              let (rs, out) := AppManager.event_loop apps rest
              (resp :: rs, out)

/-! ## Concrete fixtures

A small installer environment and image used to evaluate the model on
closed inputs: the digest of a string is the singleton list holding its
length, so `manifest.json` (3 chars) hashes to `[3]`, the config file
`0a.json` (10 chars) hashes to `[10]` matching its hex-decoded name, and
the single layer `layer0` (2 chars) hashes to `[2]` matching its declared
diff_id. -/

def wManifest : ImageManifest :=
  { config := "0a.json", tags := [], layers := ["layer0"] }

def wConfig : ContainerConfig :=
  { arch := "arm64",
    rootfs := { ty := "layers", diff_ids := [{ ty := .Sha256, val := [2] }] } }

def wEnv : InstallerEnv :=
  { hash := fun _ s => [s.length],
    parseManifests := fun s => if s = "mmm" then some [wManifest] else none,
    parseConfig := fun s => if s = "cccccccccc" then some wConfig else none }

def wImg : ImgDir :=
  { files := fun n =>
      if n = "manifest.json" then some "mmm"
      else if n = "0a.json" then some "cccccccccc"
      else if n = "layer0" then some "xx"
      else none }

/-! ## Theorems -/

/-- C8: serialization round-trip — for every value of the protocol's
`Command` type and every value of the `Response` type (including
`Response::ExitStatus`, carried as the raw platform wait-status integer),
serializing the value and deserializing the result yields the original
value. -/
theorem C8_frame_round_trip :
    (∀ c : Command, deserializeCommand (serializeCommand c) = some c) ∧
    (∀ r : Response, deserializeResponse (serializeResponse r) = some r) := by
  constructor
  · intro c; cases c <;> rfl
  · intro r; cases r <;> rfl

/-- C5: evaluation of the dm-crypt target parameter string.  With additional
options present, `CryptDevice::load` appends the option count directly after
the offset with no separating space, producing the fused `...vda1 01
allow_discards` instead of the `...vda1 0 1 allow_discards` the spec's
grammar (and the kernel's whitespace-separated target syntax) requires; the
option-free string and all three key renderings do match the spec. -/
theorem C5_missing_option_separator :
    CryptDevice.loadParams
        { start := 0, len := 2048,
          params := { cipher := .Aes, iv_mode := .Plain64, block_mode := .Xts,
                      iv_offset := 0, additional_options := some ["allow_discards"] },
          offset := 0 }
        "/dev/vda1" (.Hex "deadbeef")
      = "aes-xts-plain64 deadbeef 0 /dev/vda1 01 allow_discards" ∧
    CryptDevice.loadParams
        { start := 0, len := 2048,
          params := { cipher := .Aes, iv_mode := .Plain64, block_mode := .Xts,
                      iv_offset := 0, additional_options := some ["allow_discards"] },
          offset := 0 }
        "/dev/vda1" (.Hex "deadbeef")
      ≠ "aes-xts-plain64 deadbeef 0 /dev/vda1 0 1 allow_discards" ∧
    CryptDevice.loadParams
        { start := 0, len := 2048,
          params := { cipher := .Aes, iv_mode := .Plain64, block_mode := .Xts,
                      iv_offset := 0, additional_options := none },
          offset := 0 }
        "/dev/vda1" (.Hex "deadbeef")
      = "aes-xts-plain64 deadbeef 0 /dev/vda1 0" ∧
    Key.display (.Raw [222, 173]) = "dead" ∧
    Key.display (.Keyring 32 .User "mykey") = ":32:user:mykey" := by
  refine ⟨rfl, by decide, rfl, rfl, rfl⟩

/-- C9: evaluation of the `QEMUDisk` accessors.  After a successful
construction that stores disk GUID 1 and partition GUID 2, `disk_uuid()`
returns 2 — the partition GUID — because the source accessor returns
`self.part_uuid`; both accessors return the same value, contradicting the
claim that they return the disk and partition GUIDs respectively. -/
theorem C9_disk_uuid_returns_part_uuid :
    QEMUDisk.new 1 2 "main.raw" none 1
      = .ok ({ path := "main.raw", diskUuidMem := 1, partUuidMem := 2 },
             { size := 1048576, diskGuid := 1, partGuids := [2] }) ∧
    QEMUDisk.disk_uuid { path := "main.raw", diskUuidMem := 1, partUuidMem := 2 } = 2 ∧
    QEMUDisk.part_uuid { path := "main.raw", diskUuidMem := 1, partUuidMem := 2 } = 2 := by
  exact ⟨rfl, rfl, rfl⟩

/-- C6: kill/terminate before launch.  The guest-side launcher wrappers do
fail with `AppNotRunning` before `launch` (txrx is `none`), but the host
realm supervisor's wildcard arm answers `Ok` to `KillApp`/`TerminateApp`/
`StartApp` without writing any `Command` frame to the guest, so the client
receives a success reply and the `AppNotRunning` error can never reach it. -/
theorem C6_kill_before_launch_not_forwarded :
    Realm.dispatchRequest true (.KillApp "a1") = (.Ok, []) ∧
    Realm.dispatchRequest true (.TerminateApp "a1") = (.Ok, []) ∧
    Realm.dispatchRequest true (.StartApp "a1") = (.Ok, []) ∧
    Launcher.send_request none .Kill = .error .AppNotRunning ∧
    Launcher.send_request none .Stop = .error .AppNotRunning ∧
    Launcher.send_request none .Wait = .error .AppNotRunning := by
  exact ⟨rfl, rfl, rfl, rfl, rfl, rfl⟩

/-- C7 counterexample: an application whose secure storage is decrypted but
which carries no provision info (the non-first-boot path).
`provision_secure_memory()` mounts `workdir/secure` without formatting the
device, so the claim "formats the decrypted secure device as ext2 and then
mounts it" fails as stated. -/
theorem C7_counterexample_no_format :
    Application.provision_secure_memory
        { workdir := "wd", provision_info := false, main_storage := none,
          secure_storage := some "/dev/dm-1" }
      = .ok [AppEffect.mkdir "wd/secure", AppEffect.mountExt2 "/dev/dm-1" "wd/secure"] ∧
    AppEffect.format "/dev/dm-1" "Secure storage"
      ∉ [AppEffect.mkdir "wd/secure", AppEffect.mountExt2 "/dev/dm-1" "wd/secure"] := by
  refine ⟨rfl, by decide⟩

/-- C7 (amended): for every guest application whose secure storage has been
decrypted, `provision_secure_memory()` mounts the decrypted secure device at
`workdir/secure`, formatting it as ext2 first exactly when the application
carries provision info (first-boot provisioning); if the secure storage has
not been decrypted it fails with `SecureStorageNotDecrypted` and performs
neither step. -/
theorem C7_secure_provision :
    ∀ (app : Application) (dev : String),
      (app.secure_storage = none →
        app.provision_secure_memory = .error .SecureStorageNotDecrypted) ∧
      (app.secure_storage = some dev →
        ∃ effs, app.provision_secure_memory = .ok effs ∧
          (AppEffect.format dev "Secure storage" ∈ effs ↔ app.provision_info = true) ∧
          AppEffect.mountExt2 dev (app.workdir ++ "/" ++ "secure") ∈ effs ∧
          effs.getLast? = some (AppEffect.mountExt2 dev (app.workdir ++ "/" ++ "secure"))) := by
  intro app dev
  constructor
  · intro h
    simp [Application.provision_secure_memory, h]
  · intro h
    refine ⟨app.mount_storage dev "secure" "Secure storage", ?_, ?_, ?_, ?_⟩
    · simp [Application.provision_secure_memory, h]
    · cases hp : app.provision_info <;>
        simp [Application.mount_storage, hp]
    · cases hp : app.provision_info <;>
        simp [Application.mount_storage, hp]
    · cases hp : app.provision_info <;>
        simp [Application.mount_storage, hp, List.getLast?]

/-- C7 witness: a concrete first-boot application with decrypted secure
storage formats and then mounts. -/
theorem C7_secure_provision_witness :
    ∃ effs,
      Application.provision_secure_memory
          { workdir := "wd", provision_info := true, main_storage := none,
            secure_storage := some "/dev/dm-1" }
        = .ok effs ∧
      (AppEffect.format "/dev/dm-1" "Secure storage" ∈ effs ↔
        ({ workdir := "wd", provision_info := true, main_storage := none,
           secure_storage := some "/dev/dm-1" } : Application).provision_info = true) ∧
      AppEffect.mountExt2 "/dev/dm-1"
          (({ workdir := "wd", provision_info := true, main_storage := none,
              secure_storage := some "/dev/dm-1" } : Application).workdir ++ "/" ++ "secure")
        ∈ effs ∧
      effs.getLast? = some (AppEffect.mountExt2 "/dev/dm-1"
        (({ workdir := "wd", provision_info := true, main_storage := none,
            secure_storage := some "/dev/dm-1" } : Application).workdir ++ "/" ++ "secure")) :=
  (C7_secure_provision
      { workdir := "wd", provision_info := true, main_storage := none,
        secure_storage := some "/dev/dm-1" } "/dev/dm-1").2 rfl

/-- C3: `QEMUDisk` construction is idempotent on an existing file.  If
`QEMUDisk::new(path, size_mb)` succeeded once, producing handle `d1` and
leaving the disk file in state `f1`, then a second `new` at the same path
and size succeeds without rewriting the disk file (it returns `f1`
unchanged) and yields the same partition GUID; if instead the existing
file's byte length differs from `size_mb * 1024 * 1024`, construction fails
with `ExistingDiskSizeMismatch` before any write. -/
theorem C3_qemudisk_reopen_idempotent :
    (∀ g1 g2 g1' g2' path f0 size_mb d1 f1,
       QEMUDisk.new g1 g2 path f0 size_mb = .ok (d1, f1) →
       ∃ d2, QEMUDisk.new g1' g2' path (some f1) size_mb = .ok (d2, f1) ∧
         d2.part_uuid = d1.part_uuid) ∧
    (∀ g1 g2 path (f : DiskFile) size_mb, f.size ≠ size_mb * 1024 * 1024 →
       QEMUDisk.new g1 g2 path (some f) size_mb
         = .error (.ExistingDiskSizeMismatch path (size_mb * 1024 * 1024) f.size)) := by
  constructor
  · intro g1 g2 g1' g2' path f0 size_mb d1 f1 h
    cases f0 with
    | none =>
        simp only [QEMUDisk.new, QEMUDisk.reopen, Except.ok.injEq, Prod.mk.injEq] at h
        obtain ⟨hd, hf⟩ := h
        subst hd; subst hf
        refine ⟨{ path := path, diskUuidMem := g1, partUuidMem := g2 }, ?_, rfl⟩
        simp [QEMUDisk.new, QEMUDisk.reopen]
    | some f =>
        simp only [QEMUDisk.new] at h
        by_cases hsz : f.size = size_mb * 1024 * 1024
        · rw [if_neg (not_ne_iff.mpr hsz)] at h
          cases hpg : f.partGuids with
          | nil => simp [QEMUDisk.reopen, hpg] at h
          | cons p rest =>
              simp only [QEMUDisk.reopen, hpg, Except.ok.injEq, Prod.mk.injEq] at h
              obtain ⟨hd, hf⟩ := h
              subst hd; subst hf
              refine ⟨{ path := path, diskUuidMem := f.diskGuid, partUuidMem := p }, ?_, rfl⟩
              simp [QEMUDisk.new, QEMUDisk.reopen, hsz, hpg]
        · rw [if_pos hsz] at h
          cases h
  · intro g1 g2 path f size_mb h
    simp only [QEMUDisk.new]
    rw [if_pos h]

/-- C3 witness: reopening a 1 MiB disk file carrying one partition (GUID 2)
succeeds, leaves the file unchanged, and surfaces partition GUID 2 again. -/
theorem C3_qemudisk_witness :
    ∃ d2, QEMUDisk.new 7 8 "d.raw"
        (some { size := 1048576, diskGuid := 1, partGuids := [2] }) 1
      = .ok (d2, { size := 1048576, diskGuid := 1, partGuids := [2] }) ∧
      d2.part_uuid
        = ({ path := "d.raw", diskUuidMem := 1, partUuidMem := 2 } : QEMUDisk).part_uuid :=
  C3_qemudisk_reopen_idempotent.1 1 2 7 8 "d.raw"
    (some { size := 1048576, diskGuid := 1, partGuids := [2] }) 1
    { path := "d.raw", diskUuidMem := 1, partUuidMem := 2 }
    { size := 1048576, diskGuid := 1, partGuids := [2] } (by rfl)

/-- C2: when the sha256 of `manifest.json` differs from the supplied root of
trust, `install` fails with `HashMismatch` naming the manifest path, and the
effect trace shows that the `rootfs` directory was never created, no layer
was unpacked, and no process was spawned. -/
theorem C2_manifest_mismatch_aborts_early :
    ∀ env rot img mc,
      img.files "manifest.json" = some mc →
      env.hash .Sha256 mc ≠ rot →
      (install env rot img).fst
        = .error (.DockerError (.HashMismatch "manifest.json" rot (env.hash .Sha256 mc))) ∧
      Effect.createDir "rootfs" ∉ (install env rot img).snd ∧
      (∀ p, Effect.unpackLayer p ∉ (install env rot img).snd) ∧
      Effect.spawnProcess ∉ (install env rot img).snd := by
  intro env rot img mc hfile hne
  have hne' : rot ≠ env.hash .Sha256 mc := Ne.symm hne
  have hrm : read_manifest env img (some rot)
      = .error (.DockerError (.HashMismatch "manifest.json" rot (env.hash .Sha256 mc))) := by
    simp only [read_manifest, hfile]
    rw [if_pos hne']
  have hinst : install env rot img
      = (.error (.DockerError (.HashMismatch "manifest.json" rot (env.hash .Sha256 mc))),
         [.createDir "img", .unpackOuter]) := by
    simp [install, hrm]
  rw [hinst]
  refine ⟨rfl, by simp, fun p => by simp, by simp⟩

/-- C2 witness: in the concrete fixture the manifest hashes to `[3]`;
supplying root of trust `[99]` yields `HashMismatch` on `manifest.json` with
no `rootfs` creation, no layer unpack and no spawn. -/
theorem C2_manifest_mismatch_witness :
    (install wEnv [99] wImg).fst
      = .error (.DockerError (.HashMismatch "manifest.json" [99] (wEnv.hash .Sha256 "mmm"))) ∧
    Effect.createDir "rootfs" ∉ (install wEnv [99] wImg).snd ∧
    (∀ p, Effect.unpackLayer p ∉ (install wEnv [99] wImg).snd) ∧
    Effect.spawnProcess ∉ (install wEnv [99] wImg).snd :=
  C2_manifest_mismatch_aborts_early wEnv [99] wImg "mmm" (by rfl) (by decide)

theorem upd_self {α : Type} (m : Nat → α) (k : Nat) (v : α) : upd m k v k = v := by
  simp [upd]

theorem upd_other {α : Type} (m : Nat → α) (k : Nat) (v : α) (x : Nat) (h : x ≠ k) :
    upd m k v x = m x := by
  simp [upd, h]

/-- One dispatcher call preserves the at-rest invariant. -/
theorem atRest_step (d : ConnectionDispatcher) (op : DispatchOp) (h : d.atRest) :
    (d.step op).atRest := by
  cases op with
  | add cid s =>
      simp only [ConnectionDispatcher.step, ConnectionDispatcher.add_stream]
      by_cases hav : (d.available cid).isSome
      · simp only [hav, if_pos]
        exact h
      · simp only [hav, Bool.false_eq_true, if_false, ConnectionDispatcher.resolve]
        cases hreq : d.requests cid with
        | true =>
            simp only [upd_self, hreq]
            intro c
            by_cases hc : c = cid
            · subst hc; simp [upd_self]
            · simp only [upd_other _ _ _ _ hc]
              exact h c
        | false =>
            simp only [upd_self, hreq]
            intro c
            by_cases hc : c = cid
            · subst hc; simp [upd_self, hreq]
            · simp only [upd_other _ _ _ _ hc]
              exact h c
  | request cid =>
      simp only [ConnectionDispatcher.step, ConnectionDispatcher.request_stream]
      by_cases hreq : d.requests cid
      · simp only [hreq, if_pos]
        exact h
      · simp only [hreq, Bool.false_eq_true, if_false, ConnectionDispatcher.resolve]
        cases hav : d.available cid with
        | some s =>
            simp only [upd_self, hav]
            intro c
            by_cases hc : c = cid
            · subst hc; simp [upd_self]
            · simp only [upd_other _ _ _ _ hc]
              exact h c
        | none =>
            simp only [upd_self, hav]
            intro c
            by_cases hc : c = cid
            · subst hc; simp [upd_other, hav, upd_self]
            · simp only [upd_other _ _ _ _ hc]
              exact h c

theorem atRest_run (ops : List DispatchOp) (d : ConnectionDispatcher) (h : d.atRest) :
    (d.run ops).atRest := by
  induction ops generalizing d with
  | nil => exact h
  | cons op rest ih => exact ih (d.step op) (atRest_step d op h)

/-- C4: the dispatcher invariant and the rendezvous in both orders.  Every
sequence of `add_stream`/`request_stream` calls starting from
`ConnectionDispatcher::new` leaves no CID in both maps at rest; and from any
state with neither a parked stream nor a waiter for `cid`, requesting then
adding (or adding then requesting) delivers exactly the added stream `s` to
the waiter and clears both slots for that CID. -/
theorem C4_dispatcher_rendezvous :
    (∀ ops, (ConnectionDispatcher.new.run ops).atRest) ∧
    (∀ (d : ConnectionDispatcher) (cid s : Nat),
       d.available cid = none → d.requests cid = false →
       ∃ d1 d2, d.request_stream cid = .ok (d1, none) ∧
         d1.add_stream cid s = .ok (d2, some s) ∧
         d2.available cid = none ∧ d2.requests cid = false) ∧
    (∀ (d : ConnectionDispatcher) (cid s : Nat),
       d.available cid = none → d.requests cid = false →
       ∃ d1 d2, d.add_stream cid s = .ok (d1, none) ∧
         d1.request_stream cid = .ok (d2, some s) ∧
         d2.available cid = none ∧ d2.requests cid = false) := by
  refine ⟨?_, ?_, ?_⟩
  · intro ops
    refine atRest_run ops ConnectionDispatcher.new ?_
    intro cid
    simp [ConnectionDispatcher.new]
  · intro d cid s hav hreq
    refine ⟨{ d with requests := upd d.requests cid true },
      { available := upd (upd d.available cid (some s)) cid none,
        requests := upd (upd d.requests cid true) cid false }, ?_, ?_, ?_, ?_⟩
    · simp [ConnectionDispatcher.request_stream, ConnectionDispatcher.resolve,
        hav, hreq, upd_self]
    · simp [ConnectionDispatcher.add_stream, ConnectionDispatcher.resolve,
        hav, hreq, upd_self]
    · simp [upd_self]
    · simp [upd_self]
  · intro d cid s hav hreq
    refine ⟨{ d with available := upd d.available cid (some s) },
      { available := upd (upd d.available cid (some s)) cid none,
        requests := upd (upd d.requests cid true) cid false }, ?_, ?_, ?_, ?_⟩
    · simp [ConnectionDispatcher.add_stream, ConnectionDispatcher.resolve,
        hav, hreq, upd_self]
    · simp [ConnectionDispatcher.request_stream, ConnectionDispatcher.resolve,
        hav, hreq, upd_self]
    · simp [upd_self]
    · simp [upd_self]

/-- C4 witness: from the fresh dispatcher, requesting CID 7 and then adding
stream 5 for CID 7 resolves the waiter with exactly stream 5 and clears both
slots. -/
theorem C4_dispatcher_witness :
    ∃ d1 d2, ConnectionDispatcher.new.request_stream 7 = .ok (d1, none) ∧
      d1.add_stream 7 5 = .ok (d2, some 5) ∧
      d2.available 7 = none ∧ d2.requests 7 = false :=
  C4_dispatcher_rendezvous.2.1 ConnectionDispatcher.new 7 5 (by rfl) (by rfl)

/-- C10 (implicit): in the guest command loop, a `StartApp`, `TerminateApp`
or `KillApp` whose application id is not in the map makes `handle_command`
return `ApplicationDoesNotExists`, and the `?` in `event_loop` propagates it,
terminating the loop without writing any `Response` frame for that command —
only the frames of the previously successful commands were written, and
nothing after the failing command is processed. -/
theorem C10_unknown_app_kills_loop :
    ∀ (apps : List (String × GuestApp)) (pre rest : List Command) (id : String)
      (bad : Command),
      apps.lookup id = none →
      (bad = Command.StartApp id ∨ bad = Command.TerminateApp id ∨
        bad = Command.KillApp id) →
      (∀ c ∈ pre, (∃ r, AppManager.handle_command apps c = .ok r) ∧
        c ≠ Command.Shutdown) →
      AppManager.handle_command apps bad = .error .ApplicationDoesNotExists ∧
      ∃ rs, AppManager.event_loop apps (pre ++ bad :: rest)
          = (rs, .failed .ApplicationDoesNotExists) ∧
        rs.length = pre.length := by
  intro apps pre rest id bad hlook hb hpre
  have hbad : AppManager.handle_command apps bad = .error .ApplicationDoesNotExists := by
    rcases hb with rfl | rfl | rfl <;> simp [AppManager.handle_command, hlook]
  refine ⟨hbad, ?_⟩
  induction pre with
  | nil =>
      refine ⟨[], ?_, rfl⟩
      simp [AppManager.event_loop, hbad]
  | cons c pre ih =>
      obtain ⟨⟨r, hr⟩, hns⟩ := hpre c (List.mem_cons_self c pre)
      obtain ⟨rs, hrs, hlen⟩ := ih (fun c hc => hpre c (List.mem_cons_of_mem _ hc))
      refine ⟨r :: rs, ?_, by simp [hlen]⟩
      rw [List.cons_append]
      cases c with
      | Shutdown => exact absurd rfl hns
      | StartApp i => simp [AppManager.event_loop, hr, hrs]
      | TerminateApp i => simp [AppManager.event_loop, hr, hrs]
      | KillApp i => simp [AppManager.event_loop, hr, hrs]

/-- C10 witness: with an empty application map, `start-app a1` as the first
command ends the loop with `ApplicationDoesNotExists` and zero response
frames. -/
theorem C10_unknown_app_witness :
    AppManager.handle_command [] (Command.StartApp "a1")
        = .error .ApplicationDoesNotExists ∧
    ∃ rs, AppManager.event_loop [] ([] ++ Command.StartApp "a1" :: [])
        = (rs, .failed .ApplicationDoesNotExists) ∧
      rs.length = ([] : List Command).length :=
  C10_unknown_app_kills_loop [] [] [] "a1" (Command.StartApp "a1") rfl (Or.inl rfl)
    (fun c hc => absurd hc (List.not_mem_nil c))

/-- A successful `read_manifest` with a root of trust means `manifest.json`
was present and its sha256 equals the root of trust. -/
theorem read_manifest_rot_eq (env : InstallerEnv) (img : ImgDir) (rot : List Nat)
    (x : ImageManifest × ContainerConfig) :
    read_manifest env img (some rot) = .ok x →
    ∃ mc, img.files "manifest.json" = some mc ∧ env.hash .Sha256 mc = rot := by
  intro h
  cases hf : img.files "manifest.json" with
  | none => simp [read_manifest, hf] at h
  | some mc =>
      by_cases hr : rot = env.hash .Sha256 mc
      · exact ⟨mc, rfl, hr.symm⟩
      · simp only [read_manifest, hf] at h
        rw [if_pos hr] at h
        exact Except.noConfusion h

/-- A successful `read_container_config` means the config file was present
and its sha256 equals the hex-decoded digest prefix of its file name. -/
theorem read_container_config_hash (env : InstallerEnv) (img : ImgDir)
    (m : ImageManifest) (c : ContainerConfig) :
    read_container_config env img m = .ok c →
    ∃ hexStr key content, splitOnceDot m.config = some hexStr ∧
      hexDecode hexStr = some key ∧ img.files m.config = some content ∧
      env.hash .Sha256 content = key := by
  intro h
  cases hf : img.files m.config with
  | none => simp [read_container_config, hf] at h
  | some content =>
      cases hs : splitOnceDot m.config with
      | none => simp [read_container_config, hf, hs] at h
      | some hexStr =>
          cases hd : hexDecode hexStr with
          | none => simp [read_container_config, hf, hs, hd] at h
          | some key =>
              by_cases hm : env.hash .Sha256 content = key
              · exact ⟨hexStr, key, content, rfl, hd, rfl, hm⟩
              · simp only [read_container_config, hf, hs, hd] at h
                rw [if_pos hm] at h
                exact Except.noConfusion h

/-- A successful `selectArm64` selected a manifest whose config read back
successfully with architecture arm64. -/
theorem selectArm64_config (env : InstallerEnv) (img : ImgDir) :
    ∀ (ms : List ImageManifest) (m : ImageManifest) (c : ContainerConfig),
      selectArm64 env img ms = .ok (m, c) →
      read_container_config env img m = .ok c ∧ c.arch = "arm64" := by
  intro ms
  induction ms with
  | nil => intro m c h; exact Except.noConfusion h
  | cons hd tl ih =>
      intro m c h
      cases hrc : read_container_config env img hd with
      | error e => simp [selectArm64, hrc] at h
      | ok c' =>
          by_cases ha : c'.arch = "arm64"
          · simp only [selectArm64, hrc] at h
            rw [if_pos ha] at h
            simp only [Except.ok.injEq, Prod.mk.injEq] at h
            obtain ⟨h1, h2⟩ := h
            subst h1; subst h2
            exact ⟨hrc, ha⟩
          · simp only [selectArm64, hrc] at h
            rw [if_neg ha] at h
            exact ih m c h

/-- A successful `read_manifest` returns a manifest/config pair related by
`read_container_config`, with architecture arm64. -/
theorem read_manifest_ok_config (env : InstallerEnv) (img : ImgDir)
    (rot : Option (List Nat)) (m : ImageManifest) (c : ContainerConfig) :
    read_manifest env img rot = .ok (m, c) →
    read_container_config env img m = .ok c ∧ c.arch = "arm64" := by
  intro h
  cases hf : img.files "manifest.json" with
  | none => simp [read_manifest, hf] at h
  | some content =>
      cases rot with
      | none =>
          simp only [read_manifest, hf] at h
          cases hp : env.parseManifests content with
          | none => simp only [hp] at h; exact Except.noConfusion h
          | some manifests =>
              simp only [hp] at h
              exact selectArm64_config env img manifests m c h
      | some r =>
          simp only [read_manifest, hf] at h
          by_cases hr : r ≠ env.hash .Sha256 content
          · rw [if_pos hr] at h; exact Except.noConfusion h
          · rw [if_neg hr] at h
            cases hp : env.parseManifests content with
            | none => simp only [hp] at h; exact Except.noConfusion h
            | some manifests =>
                simp only [hp] at h
                exact selectArm64_config env img manifests m c h

/-- A layer loop that returned ok verified every (path, digest) pair. -/
theorem verifyLayers_sound (env : InstallerEnv) (img : ImgDir) :
    ∀ (pairs : List (String × Digest)) (effs : List Effect),
      verifyLayers env img pairs = (.ok (), effs) →
      ∀ p ∈ pairs, ∃ content, img.files p.1 = some content ∧
        env.hash p.2.ty content = p.2.val := by
  intro pairs
  induction pairs with
  | nil => intro effs h p hp; exact absurd hp (List.not_mem_nil p)
  | cons hd tl ih =>
      obtain ⟨path, digest⟩ := hd
      intro effs h p hp
      cases hf : img.files path with
      | none => simp [verifyLayers, hf] at h
      | some content =>
          by_cases hm : env.hash digest.ty content = digest.val
          · cases hv : verifyLayers env img tl with
            | mk r' effs' =>
                simp only [verifyLayers, hf, hm, if_pos, hv] at h
                simp only [Prod.mk.injEq] at h
                rcases List.mem_cons.mp hp with heq | hmem
                · subst heq; exact ⟨content, hf, hm⟩
                · exact ih effs' (by rw [hv, h.1]) p hmem
          · simp only [verifyLayers, hf] at h
            rw [if_neg hm] at h
            simp at h

/-- Decomposition of a successful `install`. -/
theorem install_ok_parts (env : InstallerEnv) (rot : List Nat) (img : ImgDir)
    (L : Launcher) (effs : List Effect) :
    install env rot img = (.ok L, effs) →
    ∃ m c, read_manifest env img (some rot) = .ok (m, c) ∧ L.conf = c ∧
      m.layers.length = c.rootfs.diff_ids.length ∧
      ∃ effs2, verifyLayers env img (m.layers.zip c.rootfs.diff_ids) = (.ok (), effs2) := by
  intro h
  cases hrm : read_manifest env img (some rot) with
  | error e => simp [install, hrm] at h
  | ok mc =>
      obtain ⟨m, c⟩ := mc
      by_cases hlen : m.layers.length = c.rootfs.diff_ids.length
      · cases hv : verifyLayers env img (m.layers.zip c.rootfs.diff_ids) with
        | mk r' effs' =>
            cases r' with
            | error e =>
                simp only [install, hrm, hv] at h
                rw [if_neg (not_ne_iff.mpr hlen)] at h
                simp at h
            | ok u =>
                cases u
                refine ⟨m, c, rfl, ?_, hlen, effs', by rw [hv]⟩
                simp only [install, hrm, hv] at h
                rw [if_neg (not_ne_iff.mpr hlen)] at h
                simp only [Prod.mk.injEq, Except.ok.injEq] at h
                rw [← h.1]
      · simp only [install, hrm] at h
        rw [if_pos hlen] at h
        simp at h

/-- C1: for every container image `install(rot, stream)` accepts, the sha256
of `manifest.json` equals the supplied root-of-trust; the sha256 of the
selected config file equals the hex digest taken as the prefix of its file
name before the first dot; the number of manifest layer paths equals the
number of `rootfs.diff_ids`; and for every index i, the digest of layer i,
computed with the algorithm declared in `diff_ids[i]`, equals `diff_ids[i]`.
A manifest-hash violation yields `HashMismatch` naming `manifest.json`, a
count violation yields `HashNumberMismatch`, and config-hash and layer-hash
violations yield `HashMismatch` — so no violating image yields a Launcher. -/
theorem C1_install_integrity :
    (∀ (env : InstallerEnv) (rot : List Nat) (img : ImgDir) (L : Launcher)
        (effs : List Effect),
       install env rot img = (.ok L, effs) →
       (∃ mc, img.files "manifest.json" = some mc ∧ env.hash .Sha256 mc = rot) ∧
       (∃ m c, read_manifest env img (some rot) = .ok (m, c) ∧ L.conf = c ∧
         (∃ hexStr key content, splitOnceDot m.config = some hexStr ∧
            hexDecode hexStr = some key ∧ img.files m.config = some content ∧
            env.hash .Sha256 content = key) ∧
         m.layers.length = c.rootfs.diff_ids.length ∧
         (∀ i, (hl : i < m.layers.length) → (hd : i < c.rootfs.diff_ids.length) →
            ∃ content, img.files (m.layers.get ⟨i, hl⟩) = some content ∧
              env.hash (c.rootfs.diff_ids.get ⟨i, hd⟩).ty content
                = (c.rootfs.diff_ids.get ⟨i, hd⟩).val))) ∧
    (∀ (env : InstallerEnv) (rot : List Nat) (img : ImgDir) (mc : String),
       img.files "manifest.json" = some mc →
       env.hash .Sha256 mc ≠ rot →
       (install env rot img).fst
         = .error (.DockerError (.HashMismatch "manifest.json" rot (env.hash .Sha256 mc)))) ∧
    (∀ (env : InstallerEnv) (rot : List Nat) (img : ImgDir) (m : ImageManifest)
        (c : ContainerConfig),
       read_manifest env img (some rot) = .ok (m, c) →
       m.layers.length ≠ c.rootfs.diff_ids.length →
       (install env rot img).fst = .error (.DockerError .HashNumberMismatch)) ∧
    (∀ (env : InstallerEnv) (img : ImgDir) (m : ImageManifest) (hexStr : String)
        (key : List Nat) (content : String),
       img.files m.config = some content →
       splitOnceDot m.config = some hexStr →
       hexDecode hexStr = some key →
       env.hash .Sha256 content ≠ key →
       read_container_config env img m
         = .error (.DockerError (.HashMismatch m.config key (env.hash .Sha256 content)))) ∧
    (∀ (env : InstallerEnv) (img : ImgDir) (path : String) (digest : Digest)
        (rest : List (String × Digest)) (content : String),
       img.files path = some content →
       env.hash digest.ty content ≠ digest.val →
       verifyLayers env img ((path, digest) :: rest)
         = (.error (.DockerError (.HashMismatch path digest.val (env.hash digest.ty content))),
            [.unpackLayer path])) := by
  refine ⟨?_, ?_, ?_, ?_, ?_⟩
  · intro env rot img L effs h
    obtain ⟨m, c, hrm, hconf, hlen, effs2, hvl⟩ := install_ok_parts env rot img L effs h
    obtain ⟨mc, hmcf, hmchash⟩ := read_manifest_rot_eq env img rot (m, c) hrm
    obtain ⟨hrcc, _⟩ := read_manifest_ok_config env img (some rot) m c hrm
    have hlayers := verifyLayers_sound env img (m.layers.zip c.rootfs.diff_ids) effs2 hvl
    refine ⟨⟨mc, hmcf, hmchash⟩, m, c, hrm, hconf,
      read_container_config_hash env img m c hrcc, hlen, ?_⟩
    intro i hl hd
    have hz : i < (m.layers.zip c.rootfs.diff_ids).length := by
      rw [List.length_zip]; exact lt_min hl hd
    have hget : (m.layers.zip c.rootfs.diff_ids).get ⟨i, hz⟩
        = (m.layers.get ⟨i, hl⟩, c.rootfs.diff_ids.get ⟨i, hd⟩) := by
      simp [List.get_eq_getElem, List.getElem_zip]
    obtain ⟨content, hc1, hc2⟩ :=
      hlayers ((m.layers.zip c.rootfs.diff_ids).get ⟨i, hz⟩) (List.get_mem _ _ _)
    rw [hget] at hc1 hc2
    exact ⟨content, hc1, hc2⟩
  · intro env rot img mc hfile hne
    have hne' : rot ≠ env.hash .Sha256 mc := Ne.symm hne
    have hrm : read_manifest env img (some rot)
        = .error (.DockerError (.HashMismatch "manifest.json" rot (env.hash .Sha256 mc))) := by
      simp only [read_manifest, hfile]
      rw [if_pos hne']
    simp [install, hrm]
  · intro env rot img m c hrm hlen
    simp only [install, hrm]
    rw [if_pos hlen]
  · intro env img m hexStr key content h1 h2 h3 h4
    simp only [read_container_config, h1, h2, h3]
    rw [if_pos h4]
  · intro env img path digest rest content h1 h2
    simp only [verifyLayers, h1]
    rw [if_neg h2]

/-- C1 witness: the concrete fixture image installs successfully with root
of trust `[3]`, and all four integrity equalities hold of it. -/
theorem C1_install_integrity_witness :
    (∃ mc, wImg.files "manifest.json" = some mc ∧ wEnv.hash .Sha256 mc = [3]) ∧
    (∃ m c, read_manifest wEnv wImg (some [3]) = .ok (m, c) ∧
      ({ rootfs := "rootfs", conf := wConfig } : Launcher).conf = c ∧
      (∃ hexStr key content, splitOnceDot m.config = some hexStr ∧
         hexDecode hexStr = some key ∧ wImg.files m.config = some content ∧
         wEnv.hash .Sha256 content = key) ∧
      m.layers.length = c.rootfs.diff_ids.length ∧
      (∀ i, (hl : i < m.layers.length) → (hd : i < c.rootfs.diff_ids.length) →
         ∃ content, wImg.files (m.layers.get ⟨i, hl⟩) = some content ∧
           wEnv.hash (c.rootfs.diff_ids.get ⟨i, hd⟩).ty content
             = (c.rootfs.diff_ids.get ⟨i, hd⟩).val)) :=
  C1_install_integrity.1 wEnv [3] wImg { rootfs := "rootfs", conf := wConfig }
    [.createDir "img", .unpackOuter, .createDir "rootfs", .unpackLayer "layer0"]
    (by rfl)

end CCA
